import Mathlib

/-!
A shallow embedding of the single-page to-do list manager in `src/App.tsx`.

Modelling conventions:
* Timestamps (both the current time and `due` values) are integers counting
  milliseconds, matching `Date.getTime()`.  The `datetime-local` string a task
  stores is identified with its parsed timestamp, so a `due` field is
  `Option Int` (`none` for the JavaScript `null` / absent field; the handlers
  normalise the empty string to `null` before storing, so the empty-string
  case never reaches storage).
* `Date.now()` inside `handleAddTodo` and `new Date()` inside `getDueStatus`
  are modelled by passing the sampled value explicitly.
* React state updates become a pure `AppState`-to-`AppState` function.
-/

namespace TodoApp

/-- The `Todo` record of `App.tsx` lines 4–9: `id`, `text`, `completed`,
and the nullable `due` timestamp. -/
structure Todo where
  id : String
  text : String
  completed : Bool
  due : Option Int
deriving DecidableEq, Repr

/-- The two non-null results of `getDueStatus` ("overdue" and "soon");
the function otherwise returns `null`, modelled as `Option.none`. -/
inductive DueStatus where
  | overdue
  | soon
deriving DecidableEq, Repr

/-- Milliseconds in one hour, as in `36 * 60 * 60 * 1000`. -/
def msPerHour : Int := 60 * 60 * 1000

/-- `getDueStatus` (`App.tsx` lines 21–28): `null` for a missing due value,
`"overdue"` when `now > dueDate`, `"soon"` when the gap to the due time is
below 36 hours, and `null` otherwise. -/
def getDueStatus (dateString : Option Int) (now : Int) : Option DueStatus :=
  match dateString with
  | none => none
  | some dueDate =>
    if now > dueDate then some .overdue
    else if dueDate - now < 36 * msPerHour then some .soon
    else none

/-- The `Filter` union type of `App.tsx` line 19. -/
inductive Filter where
  | all
  | active
  | completed
  | soon
deriving DecidableEq, Repr

/-- `filteredTodos` (`App.tsx` lines 98–111): a `switch` over the current
filter, using `Array.prototype.filter` (which keeps relative order). -/
def filteredTodos (filter : Filter) (todos : List Todo) (now : Int) : List Todo :=
  match filter with
  | .active => todos.filter (fun t => !t.completed)
  | .completed => todos.filter (fun t => t.completed)
  | .soon => todos.filter (fun t => !t.completed && getDueStatus t.due now == some .soon)
  | .all => todos

/-- `activeCount` (`App.tsx` line 126). -/
def activeCount (todos : List Todo) : Nat :=
  (todos.filter (fun t => !t.completed)).length

/-- `completedCount` (`App.tsx` line 127). -/
def completedCount (todos : List Todo) : Nat :=
  (todos.filter (fun t => t.completed)).length

/-- `soonCount` (`App.tsx` line 128). -/
def soonCount (todos : List Todo) (now : Int) : Nat :=
  (todos.filter (fun t => !t.completed && getDueStatus t.due now == some .soon)).length

/-- The count displayed on each `FilterButton` (`App.tsx` lines 460–463):
`todos.length` for "All", `activeCount`, `completedCount` and `soonCount`
for the other three. -/
def countFor (f : Filter) (todos : List Todo) (now : Int) : Nat :=
  match f with
  | .all => todos.length
  | .active => activeCount todos
  | .completed => completedCount todos
  | .soon => soonCount todos now

/-- `String.prototype.trim` of the platform, used by `handleAddTodo`:
drop leading and trailing whitespace. -/
def jsTrim (s : String) : String :=
  ⟨((s.data.dropWhile Char.isWhitespace).reverse.dropWhile Char.isWhitespace).reverse⟩

/-- The reactive state the handlers touch (`App.tsx` lines 31–37): the task
collection, the add form's text (`input`) and due field (`due`), and the
editing slot (`editingId`, `editingText`, `editingDue`).  The `filter` state
is passed to `filteredTodos` separately, and the `ref`s are UI-only. -/
structure AppState where
  todos : List Todo
  input : String
  due : Option Int
  editingId : Option String
  editingText : String
  editingDue : Option Int
deriving DecidableEq, Repr

/-- `handleAddTodo` (`App.tsx` lines 45–59): rejects a blank `input`
(`!input.trim()`), otherwise appends a task whose id is `Date.now()`
rendered in decimal (`Date.now().toString()`, the sampled clock value `ts`),
with trimmed text, `completed: false` and the entered due value, then clears
the `input` and `due` fields. -/
def handleAddTodo (s : AppState) (ts : Nat) : AppState :=
  if jsTrim s.input = "" then s
  else
    { s with
      todos := s.todos ++ [⟨Nat.repr ts, jsTrim s.input, false, s.due⟩]
      input := ""
      due := none }

/-- `handleDelete` (`App.tsx` lines 61–63): keep the todos whose id differs. -/
def handleDelete (todos : List Todo) (id : String) : List Todo :=
  todos.filter (fun todo => todo.id != id)

/-- `handleToggle` (`App.tsx` lines 64–70): flip `completed` on the matching
id, keep every other task unchanged. -/
def handleToggle (todos : List Todo) (id : String) : List Todo :=
  todos.map (fun todo =>
    if todo.id == id then { todo with completed := !todo.completed } else todo)

/-- The collection update inside `handleEditSave` (`App.tsx` lines 80–84):
write `editingText` (as is) and `editingDue` (empty normalised to `null`,
here already `Option`) into the task matching the id. -/
def editSaveTodos (todos : List Todo) (id : String) (editingText : String)
    (editingDue : Option Int) : List Todo :=
  todos.map (fun todo =>
    if todo.id == id then { todo with text := editingText, due := editingDue } else todo)

/-- `handleEditSave` (`App.tsx` lines 79–88): update the collection through
`editSaveTodos` with the current editing fields, then clear the editing slot
(`editingId` to `null`, blank text and due). -/
def handleEditSave (s : AppState) (id : String) : AppState :=
  { s with
    todos := editSaveTodos s.todos id s.editingText s.editingDue
    editingId := none
    editingText := ""
    editingDue := none }

/-- One user intent against the collection, for reasoning about operation
sequences: an add carries the text and due value being submitted together
with the sampled `Date.now()` value `ts`; an edit-commit carries the editing
slot's text and due value. -/
inductive Op where
  | add (text : String) (due : Option Int) (ts : Nat)
  | toggle (id : String)
  | editSave (id : String) (text : String) (due : Option Int)
  | delete (id : String)
deriving DecidableEq, Repr

/-- Effect of one intent on the collection, as the handlers implement it
(`handleAddTodo` restricted to its collection update, `handleToggle`,
`editSaveTodos`, `handleDelete`). -/
def applyOp (todos : List Todo) : Op → List Todo
  | .add text due ts =>
    if jsTrim text = "" then todos
    else todos ++ [⟨Nat.repr ts, jsTrim text, false, due⟩]
  | .toggle id => handleToggle todos id
  | .editSave id text due => editSaveTodos todos id text due
  | .delete id => handleDelete todos id

/-- Run a sequence of intents starting from the empty collection. -/
def runOps (ops : List Op) : List Todo :=
  List.foldl applyOp [] ops

/-- The clock values sampled by the add operations of a sequence. -/
def addTimestamps : List Op → List Nat
  | [] => []
  | .add _ _ ts :: rest => ts :: addTimestamps rest
  | _ :: rest => addTimestamps rest

/-- Modelled from the spec: the persisted textual format.  The repository
serialises with the platform's `JSON.stringify` and reads back with
`JSON.parse` (`App.tsx` lines 13–17 and 41–43); neither function's code is
in the repository, so the "textual structured-data format" of the spec is
modelled as a JSON value tree, taking the platform's text↔tree
correspondence as exact. -/
inductive Json where
  | jnull
  | jstr (s : String)
  | jnum (n : Int)
  | jbool (b : Bool)
  | jarr (xs : List Json)
  | jobj (fields : List (String × Json))
deriving Repr

/-- How `JSON.stringify` renders one task record: an object with the four
fields of `Todo`, a `null` due when absent. -/
def encodeTodo (t : Todo) : Json :=
  .jobj [("id", .jstr t.id), ("text", .jstr t.text),
         ("completed", .jbool t.completed),
         ("due", match t.due with | none => .jnull | some d => .jnum d)]

/-- Modelled from the spec: reading one task record back at startup
(`JSON.parse` composed with the `as Todo[]` typing), inverting
`encodeTodo`'s shape; any other shape fails. -/
def decodeTodo : Json → Option Todo
  | .jobj [("id", .jstr id), ("text", .jstr text),
           ("completed", .jbool completed), ("due", dueJson)] =>
    match dueJson with
    | .jnull => some ⟨id, text, completed, none⟩
    | .jnum d => some ⟨id, text, completed, some d⟩
    | _ => none
  | _ => none

/-- Serialise the whole collection (`JSON.stringify(todos)`, line 42). -/
def serializeTodos (todos : List Todo) : Json :=
  .jarr (todos.map encodeTodo)

/-- Decode a list of task records elementwise, failing if any fails. -/
def decodeTodos : List Json → Option (List Todo)
  | [] => some []
  | j :: rest =>
    match decodeTodo j, decodeTodos rest with
    | some t, some ts => some (t :: ts)
    | _, _ => none

/-- Deserialise the persisted blob (`JSON.parse(fromStorage) as Todo[]`,
line 15). -/
def deserializeTodos : Json → Option (List Todo)
  | .jarr xs => decodeTodos xs
  | _ => none

/-- The display predicate of each filter selector, written as the spec
words it: `all` keeps every task, `active` keeps `completed == false`,
`completed` keeps `completed == true`, `soon` keeps `completed == false`
and classifier result `soon`. -/
def specFilterPred (f : Filter) (now : Int) (t : Todo) : Bool :=
  match f with
  | .all => true
  | .active => t.completed == false
  | .completed => t.completed == true
  | .soon => t.completed == false && getDueStatus t.due now == some .soon

/-- Claim C1: for every current time and due timestamp, `getDueStatus` answers
`overdue` iff `now > d`, `soon` iff `d ≥ now` and `d − now < 36` hours,
otherwise the non-special (null) result the spec labels `normal`; a
missing due timestamp also yields the null result the spec labels
`none`. -/
theorem getDueStatus_classification (d now : Int) :
    (getDueStatus (some d) now = some DueStatus.overdue ↔ now > d) ∧
    (getDueStatus (some d) now = some DueStatus.soon ↔
      d ≥ now ∧ d - now < 36 * msPerHour) ∧
    (d ≥ now → d - now ≥ 36 * msPerHour → getDueStatus (some d) now = none) ∧
    getDueStatus none now = none := by
  refine ⟨?_, ?_, ?_, rfl⟩ <;>
    simp only [getDueStatus] <;> split_ifs with h1 h2 <;> simp_all

/-- Closed instance of `getDueStatus_classification`: a due time one unit
in the past is overdue at time 1. -/
theorem getDueStatus_classification_witness :
    getDueStatus (some 0) 1 = some DueStatus.overdue :=
  ((getDueStatus_classification 0 1).1).mpr (by decide)

/-- Claim C9: once the due timestamp is at least 36 hours away (and not past),
`getDueStatus` returns exactly the value it returns for a missing due
timestamp — the `normal` and `none` cases are the same output. -/
theorem getDueStatus_normal_eq_none (now d : Int)
    (h1 : d - now ≥ 36 * msPerHour) (h2 : d ≥ now) :
    getDueStatus (some d) now = getDueStatus none now := by
  simp only [getDueStatus]
  rw [if_neg (by omega), if_neg (by omega)]

/-- Closed instance of `getDueStatus_normal_eq_none` at `now = 0` and a due
timestamp exactly 36 hours ahead. -/
theorem getDueStatus_normal_eq_none_witness :
    getDueStatus (some (36 * msPerHour)) 0 = getDueStatus none 0 :=
  getDueStatus_normal_eq_none 0 (36 * msPerHour) (by decide) (by decide)

/-- Claim C2: for every collection and selector, `filteredTodos` is exactly the
order-preserving filter of the collection by the selector's predicate. -/
theorem filteredTodos_is_spec_filter (f : Filter) (todos : List Todo) (now : Int) :
    filteredTodos f todos now = todos.filter (specFilterPred f now) := by
  cases f
  case all => exact (List.filter_true todos).symm
  case active =>
    exact List.filter_congr fun t _ => by
      simp only [specFilterPred]; cases t.completed <;> rfl
  case completed =>
    exact List.filter_congr fun t _ => by
      simp only [specFilterPred]; cases t.completed <;> rfl
  case soon =>
    exact List.filter_congr fun t _ => by
      simp only [specFilterPred]; cases t.completed <;> rfl

/-- Claim C3: every filter badge count equals the length of the list the filter
engine produces for the same selector at the same current time. -/
theorem countFor_eq_filteredTodos_length (f : Filter) (todos : List Todo) (now : Int) :
    countFor f todos now = (filteredTodos f todos now).length := by
  cases f <;> rfl

/-- Claim C8: the "All" badge count is the sum of the "Active" and "Done"
badge counts. -/
theorem count_all_eq_active_add_completed (todos : List Todo) (now : Int) :
    countFor Filter.all todos now =
      countFor Filter.active todos now + countFor Filter.completed todos now := by
  simp only [countFor, activeCount, completedCount]
  induction todos with
  | nil => rfl
  | cons t rest ih =>
    cases h : t.completed <;> simp [List.filter_cons, h, ih] <;> omega

/-- Toggling an unknown id touches nothing: every `if` in the map takes the
`else` branch. -/
theorem handleToggle_unknown (todos : List Todo) (id : String)
    (h : ∀ t ∈ todos, t.id ≠ id) : handleToggle todos id = todos := by
  unfold handleToggle
  induction todos with
  | nil => rfl
  | cons t rest ih =>
    have h1 : t.id ≠ id := h t (by simp)
    simp only [List.map_cons]
    rw [if_neg (by simp [h1])]
    exact congrArg (List.cons t) (ih fun x hx => h x (by simp [hx]))

/-- Deleting an unknown id keeps every task: the filter predicate holds
everywhere. -/
theorem handleDelete_unknown (todos : List Todo) (id : String)
    (h : ∀ t ∈ todos, t.id ≠ id) : handleDelete todos id = todos := by
  unfold handleDelete
  induction todos with
  | nil => rfl
  | cons t rest ih =>
    have h1 : (t.id != id) = true := by simpa using h t (by simp)
    rw [List.filter_cons, if_pos h1]
    exact congrArg (List.cons t) (ih fun x hx => h x (by simp [hx]))

/-- Edit-committing against an unknown id touches nothing. -/
theorem editSaveTodos_unknown (todos : List Todo) (id text : String)
    (due : Option Int) (h : ∀ t ∈ todos, t.id ≠ id) :
    editSaveTodos todos id text due = todos := by
  unfold editSaveTodos
  induction todos with
  | nil => rfl
  | cons t rest ih =>
    have h1 : t.id ≠ id := h t (by simp)
    simp only [List.map_cons]
    rw [if_neg (by simp [h1])]
    exact congrArg (List.cons t) (ih fun x hx => h x (by simp [hx]))

/-- A concrete one-task state used to instantiate the operation claims. -/
def fixtureState : AppState :=
  { todos := [⟨"1", "milk", false, none⟩], input := "", due := none,
    editingId := none, editingText := "", editingDue := none }

/-- Claim C6: toggle, delete and edit-commit with an id absent from the
collection leave the collection unchanged (the handlers are total over the
id space and silently ignore unknown ids). -/
theorem unknown_id_ops_noop (s : AppState) (id : String)
    (h : ∀ t ∈ s.todos, t.id ≠ id) :
    handleToggle s.todos id = s.todos ∧
    handleDelete s.todos id = s.todos ∧
    (handleEditSave s id).todos = s.todos :=
  ⟨handleToggle_unknown _ _ h, handleDelete_unknown _ _ h,
   editSaveTodos_unknown _ _ _ _ h⟩

/-- Closed instance of `unknown_id_ops_noop`: id "2" is not in the
one-task fixture collection, so all three operations are no-ops. -/
theorem unknown_id_ops_noop_witness :
    handleToggle fixtureState.todos "2" = fixtureState.todos ∧
    handleDelete fixtureState.todos "2" = fixtureState.todos ∧
    (handleEditSave fixtureState "2").todos = fixtureState.todos :=
  unknown_id_ops_noop fixtureState "2" (by decide)

/-- Decoding inverts encoding on a single task record. -/
theorem decodeTodo_encodeTodo (t : Todo) : decodeTodo (encodeTodo t) = some t := by
  cases t with
  | mk id text completed due => cases due <;> rfl

/-- Claim C7: serialising a collection to the persisted format and reading it
back succeeds and returns the same collection — same ids, order and
fields. -/
theorem serialize_deserialize_roundtrip (todos : List Todo) :
    deserializeTodos (serializeTodos todos) = some todos := by
  have key : ∀ l : List Todo, decodeTodos (l.map encodeTodo) = some l := by
    intro l
    induction l with
    | nil => rfl
    | cons t rest ih => simp [decodeTodos, decodeTodo_encodeTodo, ih]
  exact key todos

/-- A concrete state mid-edit: task "1" is being edited with editing text
`" hi "` (whitespace around it). -/
def editFixture : AppState :=
  { todos := [⟨"1", "old", false, none⟩], input := "", due := none,
    editingId := some "1", editingText := " hi ", editingDue := none }

/-- Claim C4 counterexample: committing the edit of task "1" with editing text
`" hi "` stores the text untrimmed, so the stored text differs from the
trimmed editing text the claim promises. -/
theorem editSave_stores_untrimmed :
    ∃ t, t ∈ (handleEditSave editFixture "1").todos ∧ t.id = "1" ∧
      t.text ≠ jsTrim editFixture.editingText :=
  ⟨⟨"1", " hi ", false, none⟩, by decide, by decide, by decide⟩

/-- The task matching the id is rewritten by `editSaveTodos` with exactly
the given text and due value. -/
theorem mem_editSaveTodos_update (todos : List Todo) (id text : String)
    (due : Option Int) (t : Todo) (ht : t ∈ todos) (hid : t.id = id) :
    ∃ t' ∈ editSaveTodos todos id text due,
      t'.id = id ∧ t'.text = text ∧ t'.due = due := by
  refine ⟨{ t with text := text, due := due }, ?_, hid, rfl, rfl⟩
  have hmem : (if t.id == id then { t with text := text, due := due } else t)
      ∈ editSaveTodos todos id text due :=
    List.mem_map_of_mem _ ht
  rw [if_pos (show (t.id == id) = true by simp [hid])] at hmem
  exact hmem

/-- Claim C4 (amended): committing an edit writes the edited text verbatim
(without trimming) together with the edited due value into the task
matching the id, and exits editing mode. -/
theorem editSave_writes_raw_text (s : AppState) (id : String)
    (h : ∃ t ∈ s.todos, t.id = id) :
    (∃ t' ∈ (handleEditSave s id).todos,
      t'.id = id ∧ t'.text = s.editingText ∧ t'.due = s.editingDue) ∧
    (handleEditSave s id).editingId = none := by
  obtain ⟨t, ht, hid⟩ := h
  exact ⟨mem_editSaveTodos_update s.todos id s.editingText s.editingDue t ht hid, rfl⟩

/-- Closed instance of `editSave_writes_raw_text` on the edit fixture. -/
theorem editSave_writes_raw_text_witness :
    (∃ t' ∈ (handleEditSave editFixture "1").todos,
      t'.id = "1" ∧ t'.text = editFixture.editingText ∧
      t'.due = editFixture.editingDue) ∧
    (handleEditSave editFixture "1").editingId = none :=
  editSave_writes_raw_text editFixture "1" ⟨⟨"1", "old", false, none⟩, by decide, rfl⟩

/-- A concrete state mid-edit whose editing text is whitespace-only. -/
def blankEditFixture : AppState :=
  { todos := [⟨"1", "old", false, none⟩], input := "   ", due := none,
    editingId := some "1", editingText := "   ", editingDue := none }

/-- Claim C10: edit-commit performs no emptiness check — a blank (whitespace-only)
editing text is stored verbatim into the matching task — whereas add
rejects a blank input and leaves the state unchanged. -/
theorem editSave_accepts_blank_add_rejects (s : AppState) (id : String)
    (_hblank : jsTrim s.editingText = "")
    (h : ∃ t ∈ s.todos, t.id = id) :
    (∃ t' ∈ (handleEditSave s id).todos, t'.id = id ∧ t'.text = s.editingText) ∧
    (∀ (s2 : AppState) (ts : Nat), jsTrim s2.input = "" → handleAddTodo s2 ts = s2) := by
  obtain ⟨t, ht, hid⟩ := h
  obtain ⟨t', hmem, hid', htext, -⟩ :=
    mem_editSaveTodos_update s.todos id s.editingText s.editingDue t ht hid
  exact ⟨⟨t', hmem, hid', htext⟩, fun s2 ts h2 => by simp [handleAddTodo, h2]⟩

/-- Closed instance of `editSave_accepts_blank_add_rejects` on the blank
edit fixture. -/
theorem editSave_accepts_blank_add_rejects_witness :
    (∃ t' ∈ (handleEditSave blankEditFixture "1").todos,
      t'.id = "1" ∧ t'.text = blankEditFixture.editingText) ∧
    (∀ (s2 : AppState) (ts : Nat), jsTrim s2.input = "" → handleAddTodo s2 ts = s2) :=
  editSave_accepts_blank_add_rejects blankEditFixture "1" (by decide)
    ⟨⟨"1", "old", false, none⟩, by decide, rfl⟩

/-- Toggling rewrites tasks in place, so the id sequence is unchanged. -/
theorem handleToggle_map_ids (todos : List Todo) (id : String) :
    (handleToggle todos id).map Todo.id = todos.map Todo.id := by
  unfold handleToggle
  rw [List.map_map]
  exact List.map_congr_left fun t _ => by
    by_cases h : (t.id == id) = true <;> simp [Function.comp, h]

/-- Edit-commit rewrites tasks in place, so the id sequence is unchanged. -/
theorem editSaveTodos_map_ids (todos : List Todo) (id text : String)
    (due : Option Int) :
    (editSaveTodos todos id text due).map Todo.id = todos.map Todo.id := by
  unfold editSaveTodos
  rw [List.map_map]
  exact List.map_congr_left fun t _ => by
    by_cases h : (t.id == id) = true <;> simp [Function.comp, h]

/-- Claim C5 counterexample: two adds sampled in the same millisecond (clock
value 5 twice) produce two tasks with the same id "5", so the resulting
ids are not pairwise distinct. -/
theorem same_ms_adds_duplicate_id :
    (runOps [Op.add "a" none 5, Op.add "b" none 5]).map Todo.id = ["5", "5"] ∧
    ¬ ((runOps [Op.add "a" none 5, Op.add "b" none 5]).map Todo.id).Nodup := by
  exact ⟨by decide, by decide⟩

/-- Invariant carried through a run: if the current ids are pairwise
distinct, avoid every id the remaining adds will mint, and those minted
ids are themselves pairwise distinct, the run ends with pairwise distinct
ids. -/
theorem foldl_applyOp_ids_nodup (ops : List Op) (todos : List Todo)
    (hnd : (todos.map Todo.id).Nodup)
    (havoid : ∀ t ∈ todos, ∀ ts ∈ addTimestamps ops, t.id ≠ Nat.repr ts)
    (hts : ((addTimestamps ops).map Nat.repr).Nodup) :
    ((List.foldl applyOp todos ops).map Todo.id).Nodup := by
  induction ops generalizing todos with
  | nil => exact hnd
  | cons op rest ih =>
    rw [List.foldl_cons]
    cases op with
    | add text due ts =>
      have htsEq : addTimestamps (Op.add text due ts :: rest) = ts :: addTimestamps rest := rfl
      rw [htsEq] at havoid hts
      by_cases hb : jsTrim text = ""
      · rw [show applyOp todos (Op.add text due ts) = todos by simp [applyOp, hb]]
        refine ih todos hnd (fun t ht ts' hts' => havoid t ht ts' (by simp [hts'])) ?_
        simpa using hts.of_cons
      · rw [show applyOp todos (Op.add text due ts)
            = todos ++ [⟨Nat.repr ts, jsTrim text, false, due⟩] by simp [applyOp, hb]]
        have hfresh : Nat.repr ts ∉ todos.map Todo.id := by
          intro hmem
          obtain ⟨t, ht, heq⟩ := List.mem_map.mp hmem
          exact havoid t ht ts (by simp) heq
        refine ih _ ?_ ?_ ?_
        · rw [List.map_append]
          simpa [List.nodup_append] using ⟨hnd, fun x hx hcontra =>
            hfresh (hcontra ▸ List.mem_map_of_mem Todo.id hx)⟩
        · intro t ht ts' hts'
          rcases List.mem_append.mp ht with hl | hr
          · exact havoid t hl ts' (by simp [hts'])
          · have : t = ⟨Nat.repr ts, jsTrim text, false, due⟩ := by simpa using hr
            subst this
            simp only
            intro hcontra
            have : Nat.repr ts ∈ (addTimestamps rest).map Nat.repr :=
              hcontra ▸ List.mem_map_of_mem Nat.repr hts'
            rw [List.map_cons] at hts
            exact (List.nodup_cons.mp hts).1 this
        · rw [List.map_cons] at hts
          exact (List.nodup_cons.mp hts).2
    | toggle id =>
      refine ih (handleToggle todos id) ?_ ?_ hts
      · rw [handleToggle_map_ids]; exact hnd
      · intro t ht ts' hts'
        have : t.id ∈ (handleToggle todos id).map Todo.id := List.mem_map_of_mem Todo.id ht
        rw [handleToggle_map_ids] at this
        obtain ⟨t0, ht0, heq⟩ := List.mem_map.mp this
        exact heq ▸ havoid t0 ht0 ts' hts'
    | editSave id text due =>
      refine ih (editSaveTodos todos id text due) ?_ ?_ hts
      · rw [editSaveTodos_map_ids]; exact hnd
      · intro t ht ts' hts'
        have : t.id ∈ (editSaveTodos todos id text due).map Todo.id :=
          List.mem_map_of_mem Todo.id ht
        rw [editSaveTodos_map_ids] at this
        obtain ⟨t0, ht0, heq⟩ := List.mem_map.mp this
        exact heq ▸ havoid t0 ht0 ts' hts'
    | delete id =>
      refine ih (handleDelete todos id) ?_ ?_ hts
      · exact hnd.sublist ((List.filter_sublist todos).map Todo.id)
      · intro t ht ts' hts'
        exact havoid t (List.mem_of_mem_filter ht) ts' hts'

/-- Claim C5 (amended): each add mints its id from the sampled clock value; when
the minted id tokens of a run's adds are pairwise distinct — in particular
whenever all adds happen at pairwise distinct milliseconds — no two tasks
in the resulting collection share an id. -/
theorem runOps_ids_nodup (ops : List Op)
    (h : ((addTimestamps ops).map Nat.repr).Nodup) :
    ((runOps ops).map Todo.id).Nodup :=
  foldl_applyOp_ids_nodup ops [] (by simp) (by simp) h

/-- Closed instance of `runOps_ids_nodup` on a four-operation run with
distinct add clock values. -/
theorem runOps_ids_nodup_witness :
    ((runOps [Op.add "a" none 1, Op.add "b" none 2, Op.toggle "1",
      Op.delete "2"]).map Todo.id).Nodup :=
  runOps_ids_nodup
    [Op.add "a" none 1, Op.add "b" none 2, Op.toggle "1", Op.delete "2"]
    (by decide)

end TodoApp
